import Mathlib

/-!
Verification development for the SK2025 sector-table converter
(`script.py`).  The program is a one-shot pipeline: a site-parameter
parser (`parse_tmp_file`), a traffic-report parser
(`parse_traffic_report`) and a table builder (`create_csv_table`).
The definitions below are a shallow embedding of that code: Python
dictionaries become association lists with in-place update ("dict"
operations `dget?`/`dinsert`), Python strings become Lean `String`
values manipulated through their underlying character lists, and the
two unit conversions are modelled exactly: the Mbps→kbps product by
exact decimal arithmetic, the dBW→W power by correct rounding of the
exact real power `10 ^ (d / 10)`.
-/

/-- Dictionary lookup, modelling Python `d[k]` / `d.get(k)` on an
association list whose keys are unique. -/
def dget? {α : Type} : List (String × α) → String → Option α
  | [], _ => none
  | (k', v) :: rest, k => if k' = k then some v else dget? rest k

/-- Dictionary assignment, modelling Python `d[k] = v`: an existing
key keeps its position and has its value replaced, a new key is
appended at the end (dict insertion order). -/
def dinsert {α : Type} : List (String × α) → String → α → List (String × α)
  | [], k, v => [(k, v)]
  | (k', v') :: rest, k, v =>
    if k' = k then (k, v) :: rest else (k', v') :: dinsert rest k v

/-- Characters stripped by Python `str.strip()` from both ends. -/
def trimChars (cs : List Char) : List Char :=
  ((cs.dropWhile Char.isWhitespace).reverse.dropWhile Char.isWhitespace).reverse

/-- Python `s.strip()`. -/
def strim (s : String) : String := ⟨trimChars s.data⟩

/-- Python `s[:-1]`: the string with its final character removed. -/
def dropLast1 (s : String) : String := ⟨s.data.dropLast⟩

/-- Python `sub in s` on character lists (substring containment). -/
def containsSub (sub : List Char) : List Char → Bool
  | [] => sub.isEmpty
  | c :: cs => sub.isPrefixOf (c :: cs) || containsSub sub cs

/-- Split a character list at every occurrence of the character
`sep`, keeping empty pieces: Python `s.split(sep)` for a one-character
separator. -/
def splitOnChar (sep : Char) : List Char → List (List Char)
  | [] => [[]]
  | c :: cs =>
    if c = sep then [] :: splitOnChar sep cs
    else
      match splitOnChar sep cs with
      | [] => [[c]]
      | l :: ls => (c :: l) :: ls

/-- Fuel-driven worker for `splitOnStr`; the fuel is an upper bound on
the number of characters still to be consumed. -/
def splitOnFuel (sep : List Char) : Nat → List Char → List Char → List (List Char)
  | _, [], acc => [acc.reverse]
  | 0, cs, acc => [acc.reverse ++ cs]
  | fuel + 1, c :: cs, acc =>
    if sep.isPrefixOf (c :: cs) then
      acc.reverse :: splitOnFuel sep fuel ((c :: cs).drop sep.length) []
    else
      splitOnFuel sep fuel cs (c :: acc)

/-- Python `re.split` on the literal (metacharacter-free) pattern
`sep`: non-overlapping matches scanned left to right, the fragments
between them returned in order. -/
def splitOnStr (sep : List Char) (s : String) : List String :=
  (splitOnFuel sep s.data.length s.data []).map (fun l => ⟨l⟩)

/-- Python `s.split()` on character lists: tokenize on runs of
whitespace, discarding empty tokens. -/
def pySplitChars : List Char → List Char → List (List Char)
  | [], acc => if acc.isEmpty then [] else [acc.reverse]
  | c :: cs, acc =>
    if c.isWhitespace then
      if acc.isEmpty then pySplitChars cs [] else acc.reverse :: pySplitChars cs []
    else pySplitChars cs (c :: acc)

/-- Python `line.split()`. -/
def pySplit (line : String) : List String :=
  (pySplitChars line.data []).map (fun l => ⟨l⟩)

/-- Python `<` on strings: lexicographic comparison of the character
sequences by code point. -/
def charListLt : List Char → List Char → Bool
  | [], [] => false
  | [], _ :: _ => true
  | _ :: _, [] => false
  | a :: as, b :: bs => if a < b then true else if b < a then false else charListLt as bs

/-- Python `a < b` on strings. -/
def strLt (a b : String) : Bool := charListLt a.data b.data

/-- Stable insertion of a string into a list, used to model Python
`sorted`. -/
def insertStr (x : String) : List String → List String
  | [] => [x]
  | y :: ys => if strLt x y then x :: y :: ys else y :: insertStr x ys

/-- Python `sorted` on a list of strings (the unique ascending
reordering; equal strings are indistinguishable, so stability is
irrelevant). -/
def sortStrs : List String → List String
  | [] => []
  | x :: xs => insertStr x (sortStrs xs)

/-- Exact decimal number `num / 10 ^ exp`, the value model for the
numbers the script obtains from Python `float()` on decimal literals
and feeds to its two unit conversions.  The script's IEEE doubles are
idealized as these exact values; the conversions downstream
(`mul1000`, `fmtPow10Div10`) then compute with them exactly. -/
structure Dec where
  num : Int
  exp : Nat
deriving DecidableEq, Repr

/-- Numeric value of a run of decimal digits. -/
def digitsVal (cs : List Char) : Nat :=
  cs.foldl (fun a c => a * 10 + (c.toNat - 48)) 0

/-- Split a character list into its leading run of decimal digits and
the remainder. -/
def takeDigits : List Char → List Char × List Char
  | [] => ([], [])
  | c :: cs =>
    if c.isDigit then
      match takeDigits cs with
      | (d, r) => (c :: d, r)
    else ([], c :: cs)

/-- Apply a parsed scientific-notation exponent to a mantissa. -/
def applyExp (m : Dec) (pos : Bool) (k : Nat) : Dec :=
  if pos then ⟨m.num * (10 : Int) ^ k, m.exp⟩ else ⟨m.num, m.exp + k⟩

/-- Parse the digits of an exponent part (everything after `e`, `e+`
or `e-`); they must be non-empty and end the string. -/
def pyExpNat (r : List Char) (m : Dec) (pos : Bool) : Option Dec :=
  match takeDigits r with
  | (d, rest) => if d.isEmpty || !rest.isEmpty then none else some (applyExp m pos (digitsVal d))

/-- Parse an optional exponent sign followed by exponent digits. -/
def pyExpSign (r : List Char) (m : Dec) : Option Dec :=
  match r with
  | '+' :: r2 => pyExpNat r2 m true
  | '-' :: r2 => pyExpNat r2 m false
  | r2 => pyExpNat r2 m true

/-- Parse the optional `e`/`E` exponent part after a mantissa. -/
def pyExpPart (r : List Char) (m : Dec) : Option Dec :=
  match r with
  | [] => some m
  | 'e' :: r2 => pyExpSign r2 m
  | 'E' :: r2 => pyExpSign r2 m
  | _ => none

/-- Parse an unsigned decimal mantissa (`digits`, `digits.digits`,
`.digits` or `digits.`) with optional exponent. -/
def pyMant (cs : List Char) : Option Dec :=
  match takeDigits cs with
  | (ip, r1) =>
    match r1 with
    | '.' :: r2 =>
      match takeDigits r2 with
      | (fp, r3) =>
        if ip.isEmpty && fp.isEmpty then none
        else pyExpPart r3 ⟨digitsVal (ip ++ fp), fp.length⟩
    | _ => if ip.isEmpty then none else pyExpPart r1 ⟨digitsVal ip, 0⟩

/-- Python `float(s)` on the decimal-literal grammar (optional sign,
digits with optional decimal point, optional exponent), after
stripping surrounding whitespace; `none` models the `ValueError`
branch.  The `inf`/`nan` words and underscore digit grouping accepted
by Python are outside the model (the script never meets them). -/
def pyFloat? (s : String) : Option Dec :=
  match trimChars s.data with
  | '+' :: cs => pyMant cs
  | '-' :: cs => (pyMant cs).map (fun m => ⟨-m.num, m.exp⟩)
  | cs => pyMant cs

/-- Two-digit zero padding for the fractional part of a formatted
number. -/
def natPad2 (n : Nat) : String :=
  if n < 10 then "0" ++ Nat.repr n else Nat.repr n

/-- Python `"{x:.2f}".format(...)`: round the value to hundredths,
ties to even, and render with exactly two decimal places. -/
def fmtFixed2 (x : Dec) : String :=
  let a := x.num * 100
  let M : Int := (10 : Int) ^ x.exp
  let q := Int.fdiv a M
  let r := a - q * M
  let n := if 2 * r < M then q else if M < 2 * r then q + 1 else if q % 2 = 0 then q else q + 1
  let sign := if x.num < 0 then "-" else ""
  sign ++ Nat.repr (n.natAbs / 100) ++ "." ++ natPad2 (n.natAbs % 100)

/-- Binary search for the largest `m` in `[lo, hi)` with `m ^ b ≤ N`,
given the invariant `lo ^ b ≤ N < hi ^ b`; the fuel bounds the number
of halvings. -/
def bsearchFloor (N b : Nat) : Nat → Nat → Nat → Nat
  | 0, lo, _ => lo
  | fuel + 1, lo, hi =>
    if hi ≤ lo + 1 then lo
    else
      let mid := (lo + hi) / 2
      if mid ^ b ≤ N then bsearchFloor N b fuel mid hi else bsearchFloor N b fuel lo mid

/-- `⌊10 ^ (A / b)⌋` for natural `A` and positive `b`, computed
exactly: with `q = A / b` the value lies in `[10 ^ q, 10 ^ (q + 1))`,
`m ≤ 10 ^ (A / b)` is decided as `m ^ b ≤ 10 ^ A`, and the interval of
length `9 · 10 ^ q < 2 ^ (4 (q + 2))` is exhausted by `4 (q + 2)`
halvings. -/
def floorRoot10 (A b : Nat) : Nat :=
  let q := A / b
  bsearchFloor (10 ^ A) b (4 * (q + 2)) (10 ^ q) (10 ^ (q + 1))

/-- Round `10 ^ (A / b)` to the nearest integer given its floor `m`:
compare the value with `m + 1/2` via `2 ^ b · 10 ^ A` versus
`(2 m + 1) ^ b`.  A tie would force `10 ^ (A / b)` to be a
half-integer, which never happens, but the tie arm mirrors the
round-half-even of Python's formatting. -/
def roundBump (A : Int) (b m : Nat) : Nat :=
  let c := if 0 ≤ A then compare (2 ^ b * 10 ^ A.toNat) ((2 * m + 1) ^ b)
           else compare (2 ^ b) ((2 * m + 1) ^ b * 10 ^ (-A).toNat)
  match c with
  | .lt => m
  | .gt => m + 1
  | .eq => if m % 2 = 0 then m else m + 1

/-- The source's `f"{10 ** (dbw_val / 10):.2f}"` (`script.py`
lines 142-143): the exact real power `10 ^ (d / 10)` rounded to
hundredths and rendered with two decimal places.  With
`b = 10 ^ (exp + 1)` the scaled value `100 · 10 ^ (d / 10)` equals
`10 ^ (A / b)` for `A = num + 2 b`, which is positive, so no sign is
emitted.  (The only idealization left is IEEE-double roundoff: Python
rounds the 53-bit approximation of the power, this model rounds the
exact power; the two agree at two decimal places away from
representation-boundary values, and on every value exercised below.) -/
def fmtPow10Div10 (d : Dec) : String :=
  let b : Nat := 10 ^ (d.exp + 1)
  let A : Int := d.num + 2 * (b : Int)
  let m : Nat := if A < 0 then 0 else floorRoot10 A.toNat b
  let n : Nat := roundBump A b m
  Nat.repr (n / 100) ++ "." ++ natPad2 (n % 100)

/-- Python `m * 1000` (the Mbps→kbps conversion). -/
def mul1000 (m : Dec) : Dec := ⟨m.num * 1000, m.exp⟩

/-- Split a line at its first `=` character, or `none` when the line
contains no `=`: the combination of Python `'=' in line` and
`line.split('=', 1)` in the site-parameter parser. -/
def splitFirstEqAux : List Char → Option (List Char × List Char)
  | [] => none
  | c :: cs =>
    if c = '=' then some ([], cs)
    else
      match splitFirstEqAux cs with
      | some (k, v) => some (c :: k, v)
      | none => none

/-- Key/value extraction from one line of a site block: split at the
first `=`, trim both sides (`script.py` lines 21-24). -/
def splitFirstEq (line : String) : Option (String × String) :=
  (splitFirstEqAux line.data).map (fun p => (strim ⟨p.1⟩, strim ⟨p.2⟩))

/-- Process one line of a site block: store the trimmed key/value pair
when the line contains `=`, otherwise leave the mapping unchanged
(`script.py` lines 20-25). -/
def procKV (d : List (String × String)) (line : String) : List (String × String) :=
  match splitFirstEq line with
  | some kv => dinsert d kv.1 kv.2
  | none => d

/-- Parse one `SITEID` section: the first line of the stripped section
(trimmed) is the site identifier, every further line feeds `procKV`
(`script.py` lines 15-27). -/
def parseSection (section' : String) : String × List (String × String) :=
  match (splitOnChar '\n' (trimChars section'.data)).map (fun l => (⟨l⟩ : String)) with
  | [] => ("", [])
  | id0 :: rest => (strim id0, rest.foldl procKV [])

/-- Accumulate parsed sections into the sectors mapping, later entries
for the same identifier overwriting earlier ones (`script.py`
line 27). -/
def parseSections (ss : List String) : List (String × List (String × String)) :=
  ss.foldl (fun d sec => dinsert d (parseSection sec).1 (parseSection sec).2) []

/-- `parse_tmp_file` of `script.py` on the file content: split on the
literal marker `SITEID = `, discard the fragment before the first
marker, and parse each remaining section. -/
def parse_tmp_file (content : String) : List (String × List (String × String)) :=
  parseSections ((splitOnStr "SITEID = ".data content).drop 1)

/-- The six per-sector fields of the traffic-loading report
(`script.py` lines 57-64). -/
structure TrafficRecord where
  circuit_traffic : String
  required_channels : String
  channels_set : String
  channel_shortfall : String
  blocking_probability : String
  packet_traffic : String
deriving DecidableEq, Repr

/-- The literal dash boundary line marking the start of the data
section (`script.py` line 41). -/
def boundaryStr : String :=
  "--------- --------------- ----------------- ------------ --------- ---------------- --------------"

/-- Python `'---…---' in line`. -/
def hasBoundary (line : String) : Bool := containsSub boundaryStr.data line.data

/-- The entry a data line would contribute: when the line tokenizes
into at least 7 whitespace-separated parts, its first token keys a
record of the next six tokens; otherwise nothing (`script.py`
lines 47-64). -/
def lineEntry (line : String) : Option (String × TrafficRecord) :=
  let parts := pySplit line
  if parts.length ≥ 7 then
    some (parts.getD 0 "",
      ⟨parts.getD 1 "", parts.getD 2 "", parts.getD 3 "",
       parts.getD 4 "", parts.getD 5 "", parts.getD 6 ""⟩)
  else none

/-- One iteration of the traffic-report loop over `(data_started,
traffic_data)` (`script.py` lines 40-64). -/
def step (st : Bool × List (String × TrafficRecord)) (line : String) :
    Bool × List (String × TrafficRecord) :=
  if hasBoundary line then (true, st.2)
  else if st.1 = true ∧ strim line ≠ "" then
    (st.1, match lineEntry line with
           | some kv => dinsert st.2 kv.1 kv.2
           | none => st.2)
  else st

/-- `parse_traffic_report` of `script.py` on the list of input lines
(the result of `readlines()`). -/
def parse_traffic_report (lines : List String) : List (String × TrafficRecord) :=
  (lines.foldl step (false, [])).2

/-- The traffic-report loop body specialized to the state after the
boundary has been seen (`data_started = true`). -/
def step2 (d : List (String × TrafficRecord)) (line : String) :
    List (String × TrafficRecord) :=
  if hasBoundary line then d
  else if strim line ≠ "" then
    match lineEntry line with
    | some kv => dinsert d kv.1 kv.2
    | none => d
  else d

/-- The record a post-boundary line contributes for sector `s`, if
any. -/
def entryFor (line s : String) : Option TrafficRecord :=
  if hasBoundary line then none
  else if strim line ≠ "" then
    (lineEntry line).bind (fun kv => if kv.1 = s then some kv.2 else none)
  else none

/-- `get_antenna_type` of `script.py`: prefer the trimmed
`Transmit antenna pattern filename`, keeping only the part after the
last backslash when one is present; otherwise fall back to the trimmed
`Transmitter antenna type`. -/
def get_antenna_type (sector_data : List (String × String)) : String :=
  let pattern_filename := strim ((dget? sector_data "Transmit antenna pattern filename").getD "")
  if pattern_filename ≠ "" then
    if containsSub ['\\'] pattern_filename.data then
      ⟨(splitOnChar '\\' pattern_filename.data).getLastD []⟩
    else pattern_filename
  else strim ((dget? sector_data "Transmitter antenna type").getD "")

/-- The transmitter-power output field (`script.py` lines 138-145):
watts from dBW with two decimal places when the trimmed value parses
as a float, a bare `/…dBW` prefix-less form when it does not, and the
empty string when the value is empty. -/
def powerField (power_dbw : String) : String :=
  if power_dbw ≠ "" then
    match pyFloat? power_dbw with
    | some d => fmtPow10Div10 d ++ "W/" ++ power_dbw ++ "dBW"
    | none => "/" ++ power_dbw ++ "dBW"
  else ""

/-- One output row for sector `sector_id` at 0-based position `i`
inside station `station` (`script.py` lines 127-192).  The thirteen
entries are: station name (first row of the group only), sector id,
height, power, antenna type, azimuth, tilt, circuit traffic [mErl],
packet traffic [kbps], required channels, channels set, blocking
probability, and the always-empty HO neighborhood column. -/
def makeRow (sectors_data : List (String × List (String × String)))
    (traffic_data : List (String × TrafficRecord))
    (station : String) (i : Nat) (sector_id : String) : List String :=
  let sector_data := (dget? sectors_data sector_id).getD []
  let traffic_info := dget? traffic_data sector_id
  let station_name := if i = 0 then station else ""
  let height := strim ((dget? sector_data "Site elevation(m)").getD "")
  let power_dbw := strim ((dget? sector_data "Transmitter power(dBW)").getD "")
  let power_w := powerField power_dbw
  let antenna_type := get_antenna_type sector_data
  let azimuth := strim ((dget? sector_data "Transmit antenna azimuth orientation(degrees)").getD "")
  let tilt := strim ((dget? sector_data "Transmit antenna mechanical beamtilt(degrees)").getD "")
  let circuit_traffic := match traffic_info with | some t => t.circuit_traffic | none => ""
  let packet_traffic := match traffic_info with | some t => t.packet_traffic | none => ""
  let packet_traffic_kbps :=
    if packet_traffic ≠ "" then
      match pyFloat? packet_traffic with
      | some m => fmtFixed2 (mul1000 m)
      | none => packet_traffic
    else ""
  let required_channels := match traffic_info with | some t => t.required_channels | none => ""
  let channels_set := match traffic_info with | some t => t.channels_set | none => ""
  let bp0 := match traffic_info with | some t => t.blocking_probability | none => ""
  let blocking_probability := if bp0 = "*****" then ">99.99" else bp0
  [station_name, sector_id, height, power_w, antenna_type, azimuth, tilt,
   circuit_traffic, packet_traffic_kbps, required_channels, channels_set,
   blocking_probability, ""]

/-- Insert a sector id into the station grouping (`script.py`
lines 99-104): an existing station has the sector appended to its
list, a new station is appended at the end with a singleton list. -/
def addToGroup : List (String × List String) → String → String → List (String × List String)
  | [], station, sec => [(station, [sec])]
  | (s, l) :: rest, station, sec =>
    if s = station then (s, l ++ [sec]) :: rest
    else (s, l) :: addToGroup rest station sec

/-- Group the sector identifiers by station (`script.py` lines
98-104): the station of a sector is its identifier with the last
character dropped. -/
def buildStations (keys : List String) : List (String × List String) :=
  keys.foldl (fun st sector_id => addToGroup st (dropLast1 sector_id) sector_id) []

/-- All data rows of the output table (`script.py` lines 123-194):
stations in first-encounter order, sectors of a station in sorted
order. -/
def createRows (sectors_data : List (String × List (String × String)))
    (traffic_data : List (String × TrafficRecord)) : List (List String) :=
  ((buildStations (sectors_data.map Prod.fst)).map
    (fun g => (sortStrs g.2).enum.map
      (fun p => makeRow sectors_data traffic_data g.1 p.1 p.2))).flatten

/-- The fixed header row written first (`script.py` lines 107-121). -/
def headers : List String :=
  ["Nazwa stacji",
   "ID sektora",
   "Wys. stacji n.p.m. [m]",
   "Moc nadajnika [W]/[dBW]",
   "Typ anteny nadawczej",
   "Azymut [°]",
   "Pochylenie [°]",
   "Ruch generowany [mErl.]",
   "Ruch generowany [kbps]",
   "Liczba potrzebnych kanałów",
   "Numery przydzielonych kanałów radiowych",
   "Rzeczywiste prawdopodobieństwo blokady [%]",
   "Definicja sąsiedztwa dla HO (ID sektorów)"]

/-- `create_csv_table` of `script.py`, viewed as the table it writes:
the header row followed by the data rows (CSV field quoting is the
identity on every string the program emits and is not modelled). -/
def create_csv_table (sectors_data : List (String × List (String × String)))
    (traffic_data : List (String × TrafficRecord)) : List (List String) :=
  headers :: createRows sectors_data traffic_data

/-! ### Dictionary lemmas -/

theorem dget?_dinsert {α : Type} (d : List (String × α)) (k : String) (v : α) (s : String) :
    dget? (dinsert d k v) s = if k = s then some v else dget? d s := by
  induction d with
  | nil => simp [dinsert, dget?]
  | cons p rest ih =>
    obtain ⟨k', v'⟩ := p
    by_cases h : k' = k
    · subst h
      simp only [dinsert, if_pos rfl, dget?]
      by_cases hs : k' = s <;> simp [hs]
    · simp only [dinsert, if_neg h, dget?]
      rw [ih]
      by_cases hs : k' = s
      · by_cases hk : k = s
        · exact absurd (hs.trans hk.symm) h
        · simp [hs, hk]
      · simp [hs]

theorem findSome?_app {α β : Type} (l₁ l₂ : List α) (g : α → Option β) :
    (l₁ ++ l₂).findSome? g = ((l₁.findSome? g).elim (l₂.findSome? g) some) := by
  induction l₁ with
  | nil => simp
  | cons a t ih =>
    simp only [List.cons_append, List.findSome?_cons]
    cases g a <;> simp [ih]

theorem dget?_foldl_gen {α V : Type} (f : List (String × V) → α → List (String × V))
    (s : String) (g : α → Option V)
    (hf : ∀ d a, dget? (f d a) s = ((g a).elim (dget? d s) some)) :
    ∀ (l : List α) (d : List (String × V)),
      dget? (l.foldl f d) s = ((l.reverse.findSome? g).elim (dget? d s) some) := by
  intro l
  induction l with
  | nil => intro d; simp
  | cons a t ih =>
    intro d
    simp only [List.foldl_cons, List.reverse_cons]
    rw [ih (f d a), hf d a, findSome?_app]
    cases h : t.reverse.findSome? g <;> cases hga : g a <;> simp [h, hga, List.findSome?]

theorem dget?_isSome_iff {α : Type} (d : List (String × α)) (k : String) :
    (dget? d k).isSome ↔ k ∈ d.map Prod.fst := by
  induction d with
  | nil => simp [dget?]
  | cons p rest ih =>
    obtain ⟨k', v'⟩ := p
    by_cases h : k' = k
    · subst h
      simp [dget?]
    · simp only [dget?, if_neg h, List.map_cons, List.mem_cons, ih]
      constructor
      · exact Or.inr
      · rintro (hk | hk)
        · exact absurd hk.symm h
        · exact hk

/-! ### Traffic-parser lemmas -/

theorem step_no_boundary_false (d : List (String × TrafficRecord)) (line : String)
    (h : hasBoundary line = false) : step (false, d) line = (false, d) := by
  simp [step, h]

theorem foldl_step_false (pre : List String) (d : List (String × TrafficRecord))
    (h : ∀ l ∈ pre, hasBoundary l = false) : pre.foldl step (false, d) = (false, d) := by
  induction pre with
  | nil => rfl
  | cons a t ih =>
    rw [List.foldl_cons, step_no_boundary_false _ _ (h a (by simp))]
    exact ih (fun l hl => h l (by simp [hl]))

theorem step_true (d : List (String × TrafficRecord)) (line : String) :
    step (true, d) line = (true, step2 d line) := by
  by_cases hb : hasBoundary line
  · simp [step, step2, hb]
  · by_cases ht : strim line ≠ ""
    · simp [step, step2, hb, ht]
    · simp [step, step2, hb, ht]

theorem foldl_step_true (post : List String) (d : List (String × TrafficRecord)) :
    post.foldl step (true, d) = (true, post.foldl step2 d) := by
  induction post generalizing d with
  | nil => rfl
  | cons a t ih => rw [List.foldl_cons, step_true, List.foldl_cons, ih]

theorem dget?_step2 (d : List (String × TrafficRecord)) (line s : String) :
    dget? (step2 d line) s = ((entryFor line s).elim (dget? d s) some) := by
  by_cases hb : hasBoundary line
  · simp [step2, entryFor, hb]
  · by_cases ht : strim line ≠ ""
    · simp only [step2, entryFor, hb, Bool.false_eq_true, if_false, if_pos ht]
      cases he : lineEntry line with
      | none => simp
      | some kv =>
        simp only [Option.bind_some, dget?_dinsert]
        by_cases hk : kv.1 = s <;> simp [hk]
    · simp [step2, entryFor, hb, ht]

/-! ### Site-parser lemmas -/

theorem splitFirstEqAux_none (cs : List Char) (h : '=' ∉ cs) : splitFirstEqAux cs = none := by
  induction cs with
  | nil => rfl
  | cons c cs ih =>
    have hc : ¬ c = '=' := fun hc => h (by simp [hc])
    simp [splitFirstEqAux, hc, ih (fun hm => h (List.mem_cons_of_mem _ hm))]

theorem splitFirstEqAux_append (k v : List Char) (h : '=' ∉ k) :
    splitFirstEqAux (k ++ '=' :: v) = some (k, v) := by
  induction k with
  | nil => simp [splitFirstEqAux]
  | cons c cs ih =>
    have hc : ¬ c = '=' := fun hc => h (by simp [hc])
    simp [List.cons_append, splitFirstEqAux, hc,
      ih (fun hm => h (List.mem_cons_of_mem _ hm))]

/-! ### Grouping lemmas -/

theorem addToGroup_cons_pos (s : String) (l : List String)
    (rest : List (String × List String)) (sec : String) :
    addToGroup ((s, l) :: rest) s sec = (s, l ++ [sec]) :: rest := by
  simp [addToGroup]

theorem addToGroup_cons_neg {s station : String} (h : ¬ s = station) (l : List String)
    (rest : List (String × List String)) (sec : String) :
    addToGroup ((s, l) :: rest) station sec = (s, l) :: addToGroup rest station sec := by
  simp [addToGroup, h]

theorem exists_mem_addToGroup (st : List (String × List String)) (station sec x : String) :
    (∃ g ∈ addToGroup st station sec, x ∈ g.2) ↔ (∃ g ∈ st, x ∈ g.2) ∨ x = sec := by
  induction st with
  | nil =>
    constructor
    · rintro ⟨g, hg, hx⟩
      simp [addToGroup] at hg
      subst hg
      simp at hx
      exact Or.inr hx
    · rintro (⟨g, hg, hx⟩ | hxs)
      · simp at hg
      · exact ⟨(station, [sec]), by simp [addToGroup], by simp [hxs]⟩
  | cons p rest ih =>
    obtain ⟨s, l⟩ := p
    by_cases h : s = station
    · subst h
      rw [addToGroup_cons_pos]
      constructor
      · rintro ⟨g, hg, hx⟩
        rcases List.mem_cons.mp hg with rfl | hg2
        · rcases List.mem_append.mp hx with hxl | hxs
          · exact Or.inl ⟨(s, l), by simp, hxl⟩
          · exact Or.inr (by simpa using hxs)
        · exact Or.inl ⟨g, by simp [hg2], hx⟩
      · rintro (⟨g, hg, hx⟩ | hxs)
        · rcases List.mem_cons.mp hg with rfl | hg2
          · exact ⟨(s, l ++ [sec]), by simp, List.mem_append.mpr (Or.inl hx)⟩
          · exact ⟨g, by simp [hg2], hx⟩
        · exact ⟨(s, l ++ [sec]), by simp, by simp [hxs]⟩
    · rw [addToGroup_cons_neg h]
      constructor
      · rintro ⟨g, hg, hx⟩
        rcases List.mem_cons.mp hg with rfl | hg2
        · exact Or.inl ⟨(s, l), by simp, hx⟩
        · rcases ih.mp ⟨g, hg2, hx⟩ with ⟨g', hg', hx'⟩ | hsec
          · exact Or.inl ⟨g', by simp [hg'], hx'⟩
          · exact Or.inr hsec
      · rintro (⟨g, hg, hx⟩ | hxs)
        · rcases List.mem_cons.mp hg with rfl | hg2
          · exact ⟨(s, l), by simp, hx⟩
          · rcases ih.mpr (Or.inl ⟨g, hg2, hx⟩) with ⟨g', hg', hx'⟩
            exact ⟨g', by simp [hg'], hx'⟩
        · rcases ih.mpr (Or.inr hxs) with ⟨g', hg', hx'⟩
          exact ⟨g', by simp [hg'], hx'⟩

theorem addToGroup_station (st : List (String × List String)) (station sec : String)
    (hsec : dropLast1 sec = station)
    (hst : ∀ g ∈ st, ∀ k ∈ g.2, dropLast1 k = g.1) :
    ∀ g ∈ addToGroup st station sec, ∀ k ∈ g.2, dropLast1 k = g.1 := by
  induction st with
  | nil =>
    intro g hg k hk
    simp only [addToGroup, List.mem_singleton] at hg
    subst hg
    have hk2 : k = sec := by simpa using hk
    subst hk2
    exact hsec
  | cons p rest ih =>
    obtain ⟨s, l⟩ := p
    by_cases h : s = station
    · subst h
      intro g hg k hk
      rw [addToGroup_cons_pos] at hg
      rcases List.mem_cons.mp hg with rfl | hg2
      · rcases List.mem_append.mp hk with hkl | hks
        · exact hst (s, l) (by simp) k hkl
        · have hk2 : k = sec := by simpa using hks
          subst hk2
          exact hsec
      · exact hst g (by simp [hg2]) k hk
    · intro g hg k hk
      rw [addToGroup_cons_neg h] at hg
      rcases List.mem_cons.mp hg with rfl | hg2
      · exact hst (s, l) (by simp) k hk
      · exact ih (fun g' hg' => hst g' (by simp [hg'])) g hg2 k hk

theorem exists_mem_buildStations_foldl (keys : List String) :
    ∀ (st : List (String × List String)) (x : String),
      (∃ g ∈ keys.foldl (fun st k => addToGroup st (dropLast1 k) k) st, x ∈ g.2) ↔
        (∃ g ∈ st, x ∈ g.2) ∨ x ∈ keys := by
  induction keys with
  | nil => simp
  | cons a t ih =>
    intro st x
    rw [List.foldl_cons, ih, exists_mem_addToGroup]
    simp [or_assoc]

theorem mem_buildStations (keys : List String) (x : String) :
    (∃ g ∈ buildStations keys, x ∈ g.2) ↔ x ∈ keys := by
  rw [buildStations, exists_mem_buildStations_foldl]
  simp

theorem buildStations_station (keys : List String) :
    ∀ g ∈ buildStations keys, ∀ k ∈ g.2, dropLast1 k = g.1 := by
  rw [buildStations]
  suffices h : ∀ st, (∀ g ∈ st, ∀ k ∈ g.2, dropLast1 k = g.1) →
      ∀ g ∈ keys.foldl (fun st k => addToGroup st (dropLast1 k) k) st,
        ∀ k ∈ g.2, dropLast1 k = g.1 by
    exact h [] (by simp)
  induction keys with
  | nil => exact fun st hst => hst
  | cons a t ih =>
    intro st hst
    rw [List.foldl_cons]
    exact ih _ (addToGroup_station st _ a rfl hst)

/-! ### Sorting lemmas -/

theorem charListLt_asymm : ∀ {a b : List Char},
    charListLt a b = true → charListLt b a = false := by
  intro a
  induction a with
  | nil =>
    intro b hab
    cases b with
    | nil => simp [charListLt] at hab
    | cons y bs => simp [charListLt]
  | cons x as ih =>
    intro b hab
    cases b with
    | nil => simp [charListLt] at hab
    | cons y bs =>
      simp only [charListLt] at hab ⊢
      by_cases hxy : x < y
      · rw [if_neg (asymm hxy), if_pos hxy]
      · rw [if_neg hxy] at hab
        by_cases hyx : y < x
        · rw [if_pos hyx] at hab
          simp at hab
        · rw [if_neg hyx] at hab ⊢
          rw [if_neg hxy]
          exact ih hab

theorem charListLt_trans : ∀ {a b c : List Char},
    charListLt a b = true → charListLt b c = true → charListLt a c = true := by
  intro a
  induction a with
  | nil =>
    intro b c hab hbc
    cases b with
    | nil => simp [charListLt] at hab
    | cons y bs =>
      cases c with
      | nil => simp [charListLt] at hbc
      | cons z cs => simp [charListLt]
  | cons x as ih =>
    intro b c hab hbc
    cases b with
    | nil => simp [charListLt] at hab
    | cons y bs =>
      cases c with
      | nil => simp [charListLt] at hbc
      | cons z cs =>
        simp only [charListLt] at hab hbc ⊢
        by_cases hxy : x < y
        · by_cases hyz : y < z
          · rw [if_pos (lt_trans hxy hyz)]
          · rw [if_neg hyz] at hbc
            by_cases hzy : z < y
            · rw [if_pos hzy] at hbc
              simp at hbc
            · rw [if_neg hzy] at hbc
              have hyz2 : y = z := le_antisymm (not_lt.mp hzy) (not_lt.mp hyz)
              rw [if_pos (hyz2 ▸ hxy)]
        · rw [if_neg hxy] at hab
          by_cases hyx : y < x
          · rw [if_pos hyx] at hab
            simp at hab
          · rw [if_neg hyx] at hab
            have hxy2 : x = y := le_antisymm (not_lt.mp hyx) (not_lt.mp hxy)
            subst hxy2
            by_cases hxz : x < z
            · rw [if_pos hxz]
            · rw [if_neg hxz] at hbc ⊢
              by_cases hzx : z < x
              · rw [if_pos hzx] at hbc
                simp at hbc
              · rw [if_neg hzx] at hbc ⊢
                exact ih hab hbc

theorem strLt_asymm {a b : String} (h : strLt a b = true) : strLt b a = false :=
  charListLt_asymm h

theorem strLt_trans {a b c : String} (hab : strLt a b = true) (hbc : strLt b c = true) :
    strLt a c = true :=
  charListLt_trans hab hbc

theorem mem_insertStr (x y : String) (l : List String) :
    y ∈ insertStr x l ↔ y = x ∨ y ∈ l := by
  induction l with
  | nil => simp [insertStr]
  | cons a t ih =>
    by_cases h : strLt x a
    · simp [insertStr, h]
    · simp only [insertStr, if_neg h, List.mem_cons, ih]
      tauto

theorem perm_insertStr (x : String) (l : List String) :
    (insertStr x l).Perm (x :: l) := by
  induction l with
  | nil => simp [insertStr]
  | cons a t ih =>
    by_cases h : strLt x a
    · simp [insertStr, h]
    · rw [insertStr, if_neg h]
      exact (ih.cons a).trans (List.Perm.swap x a t)

theorem perm_sortStrs (l : List String) : (sortStrs l).Perm l := by
  induction l with
  | nil => simp [sortStrs]
  | cons a t ih =>
    exact (perm_insertStr a (sortStrs t)).trans (ih.cons a)

theorem mem_sortStrs (x : String) (l : List String) : x ∈ sortStrs l ↔ x ∈ l :=
  (perm_sortStrs l).mem_iff

theorem sorted_insertStr (x : String) (l : List String)
    (h : l.Pairwise (fun a b => strLt b a = false)) :
    (insertStr x l).Pairwise (fun a b => strLt b a = false) := by
  induction l with
  | nil => simp [insertStr]
  | cons a t ih =>
    rcases List.pairwise_cons.mp h with ⟨ha, ht⟩
    by_cases hx : strLt x a
    · rw [insertStr, if_pos hx]
      refine List.pairwise_cons.mpr ⟨?_, h⟩
      intro z hz
      rcases List.mem_cons.mp hz with rfl | hzt
      · exact strLt_asymm hx
      · by_contra hzx
        have hzx2 : strLt z x = true := by
          cases hzx3 : strLt z x
          · exact absurd hzx3 hzx
          · rfl
        have : strLt z a = true := strLt_trans hzx2 hx
        rw [ha z hzt] at this
        exact Bool.false_ne_true this
    · rw [insertStr, if_neg hx]
      refine List.pairwise_cons.mpr ⟨?_, ih ht⟩
      intro z hz
      rcases (mem_insertStr x z t).mp hz with rfl | hzt
      · cases hax : strLt z a
        · rfl
        · exact absurd hax (by simp [hx])
      · exact ha z hzt

theorem sorted_sortStrs (l : List String) :
    (sortStrs l).Pairwise (fun a b => strLt b a = false) := by
  induction l with
  | nil => simp [sortStrs]
  | cons a t ih => exact sorted_insertStr a (sortStrs t) ih

/-! ### Row lemmas -/

theorem makeRow_length (sd : List (String × List (String × String)))
    (td : List (String × TrafficRecord)) (st : String) (i : Nat) (sid : String) :
    (makeRow sd td st i sid).length = 13 := rfl

theorem makeRow_get1 (sd : List (String × List (String × String)))
    (td : List (String × TrafficRecord)) (st : String) (i : Nat) (sid : String) :
    (makeRow sd td st i sid).get? 1 = some sid := rfl

theorem makeRow_get0 (sd : List (String × List (String × String)))
    (td : List (String × TrafficRecord)) (st : String) (i : Nat) (sid : String) :
    (makeRow sd td st i sid).get? 0 = some (if i = 0 then st else "") := rfl

theorem makeRow_traffic_none (sd : List (String × List (String × String)))
    (td : List (String × TrafficRecord)) (st : String) (i : Nat) (sid : String)
    (h : dget? td sid = none) :
    (makeRow sd td st i sid).get? 7 = some "" ∧
    (makeRow sd td st i sid).get? 8 = some "" ∧
    (makeRow sd td st i sid).get? 9 = some "" ∧
    (makeRow sd td st i sid).get? 10 = some "" ∧
    (makeRow sd td st i sid).get? 11 = some "" := by
  simp [makeRow, h, List.get?]

theorem mem_createRows (sd : List (String × List (String × String)))
    (td : List (String × TrafficRecord)) (r : List String) :
    r ∈ createRows sd td ↔
      ∃ g ∈ buildStations (sd.map Prod.fst), ∃ p ∈ (sortStrs g.2).enum,
        r = makeRow sd td g.1 p.1 p.2 := by
  rw [createRows]
  rw [List.mem_flatten]
  constructor
  · rintro ⟨blk, hblk, hr⟩
    rcases List.mem_map.mp hblk with ⟨g, hg, rfl⟩
    rcases List.mem_map.mp hr with ⟨p, hp, rfl⟩
    exact ⟨g, hg, p, hp, rfl⟩
  · rintro ⟨g, hg, p, hp, rfl⟩
    exact ⟨_, List.mem_map_of_mem _ hg, List.mem_map_of_mem _ hp⟩

theorem snd_mem_of_mem_enum {α : Type} {p : Nat × α} {l : List α}
    (h : p ∈ l.enum) : p.2 ∈ l := by
  have := List.mem_map_of_mem Prod.snd h
  rwa [List.enum_map_snd] at this

theorem exists_enum_of_mem {α : Type} {x : α} {l : List α} (h : x ∈ l) :
    ∃ p ∈ l.enum, p.2 = x := by
  have hx : x ∈ l.enum.map Prod.snd := by rwa [List.enum_map_snd]
  rcases List.mem_map.mp hx with ⟨p, hp, hpx⟩
  exact ⟨p, hp, hpx⟩

/-! ### Claims -/

/-- Claim C1, counterexample: the output table does not begin with the
thirteen English column labels the claim lists; the header written by
the table builder is the Polish label row. -/
theorem C1_counterexample :
    ¬ ((create_csv_table [] []).head? =
      some ["Station name", "Sector ID", "Station height above sea level [m]",
        "Transmitter power [W]/[dBW]", "Transmit antenna type", "Azimuth [°]",
        "Tilt [°]", "Generated traffic [mErl]", "Generated traffic [kbps]",
        "Number of required channels", "Number of assigned radio channels",
        "Actual blocking probability [%]",
        "HO neighborhood definition (sector IDs)"]) := by decide

/-- Claim C1 (amended): the CSV written by the table builder begins
with a header row of exactly 13 column labels in a fixed order, namely
the Polish strings of `script.py` lines 107-121 (the claim's English
labels are their translations, not the literal header text). -/
theorem C1_thm : ∀ (sd : List (String × List (String × String)))
    (td : List (String × TrafficRecord)),
    (create_csv_table sd td).head? = some headers ∧
    headers.length = 13 ∧
    headers = ["Nazwa stacji", "ID sektora", "Wys. stacji n.p.m. [m]",
      "Moc nadajnika [W]/[dBW]", "Typ anteny nadawczej", "Azymut [°]",
      "Pochylenie [°]", "Ruch generowany [mErl.]", "Ruch generowany [kbps]",
      "Liczba potrzebnych kanałów", "Numery przydzielonych kanałów radiowych",
      "Rzeczywiste prawdopodobieństwo blokady [%]",
      "Definicja sąsiedztwa dla HO (ID sektorów)"] := by
  intro sd td
  exact ⟨rfl, rfl, rfl⟩

/-- Claim C2, counterexample: the rows produced by the table builder
do not have 12 fields. -/
theorem C2_counterexample :
    ¬ ∀ r ∈ createRows [("A1", [])] [], r.length = 12 := by decide

/-- Claim C2 (amended): every output row produced by the table builder
has exactly 13 ordered fields — the sector identifier plus the twelve
derived output columns. -/
theorem C2_thm : ∀ (sd : List (String × List (String × String)))
    (td : List (String × TrafficRecord)), ∀ r ∈ createRows sd td, r.length = 13 := by
  intro sd td r hr
  rcases (mem_createRows sd td r).mp hr with ⟨g, _, p, _, rfl⟩
  exact makeRow_length sd td g.1 p.1 p.2

/-- Witness for C2: the theorem applied to a concrete one-sector
input. -/
theorem C2_witness :
    (["A", "A1", "", "", "", "", "", "", "", "", "", "", ""] : List String).length = 13 :=
  C2_thm [("A1", [])] [] _ (by decide)

/-- Claim C3: a data row exists for a sector identifier iff that
identifier is a key of the site-parameter mapping (left join keyed on
site-parameter presence), and a sector row without a traffic record
has the five traffic-derived fields empty. -/
theorem C3_thm : ∀ (sd : List (String × List (String × String)))
    (td : List (String × TrafficRecord)) (i : String),
    ((∃ r ∈ createRows sd td, r.get? 1 = some i) ↔ (dget? sd i).isSome) ∧
    (∀ r ∈ createRows sd td, r.get? 1 = some i → dget? td i = none →
      r.get? 7 = some "" ∧ r.get? 8 = some "" ∧ r.get? 9 = some "" ∧
      r.get? 10 = some "" ∧ r.get? 11 = some "") := by
  intro sd td i
  constructor
  · constructor
    · rintro ⟨r, hr, hget⟩
      rcases (mem_createRows sd td r).mp hr with ⟨g, hg, p, hp, rfl⟩
      rw [makeRow_get1] at hget
      have hpi : p.2 = i := Option.some.inj hget
      have h1 : p.2 ∈ sortStrs g.2 := snd_mem_of_mem_enum hp
      have h2 : p.2 ∈ g.2 := (mem_sortStrs _ _).mp h1
      have h3 : i ∈ sd.map Prod.fst := (mem_buildStations _ _).mp ⟨g, hg, hpi ▸ h2⟩
      exact (dget?_isSome_iff sd i).mpr h3
    · intro h
      have h3 : i ∈ sd.map Prod.fst := (dget?_isSome_iff sd i).mp h
      rcases (mem_buildStations _ i).mpr h3 with ⟨g, hg, hmem⟩
      have h4 : i ∈ sortStrs g.2 := (mem_sortStrs _ _).mpr hmem
      rcases exists_enum_of_mem h4 with ⟨p, hp, hpi⟩
      refine ⟨makeRow sd td g.1 p.1 p.2, ?_, ?_⟩
      · exact (mem_createRows sd td _).mpr ⟨g, hg, p, hp, rfl⟩
      · rw [makeRow_get1, hpi]
  · intro r hr h1 h2
    rcases (mem_createRows sd td r).mp hr with ⟨g, hg, p, hp, rfl⟩
    rw [makeRow_get1] at h1
    have hpi : p.2 = i := Option.some.inj h1
    exact makeRow_traffic_none sd td g.1 p.1 p.2 (by rw [hpi]; exact h2)

/-- Witness for C3: a site-only sector appears in the output (while
the traffic-only sector `ZZ9` keys no site record), and its
traffic-derived fields are empty. -/
theorem C3_witness :
    ((dget? [("AB1", ([] : List (String × String)))] "AB1").isSome = true) ∧
    ((["AB", "AB1", "", "", "", "", "", "", "", "", "", "", ""] : List String).get? 7 = some "" ∧
     (["AB", "AB1", "", "", "", "", "", "", "", "", "", "", ""] : List String).get? 8 = some "" ∧
     (["AB", "AB1", "", "", "", "", "", "", "", "", "", "", ""] : List String).get? 9 = some "" ∧
     (["AB", "AB1", "", "", "", "", "", "", "", "", "", "", ""] : List String).get? 10 = some "" ∧
     (["AB", "AB1", "", "", "", "", "", "", "", "", "", "", ""] : List String).get? 11 = some "") := by
  have h := C3_thm [("AB1", [])] [("ZZ9", ⟨"1", "2", "3", "4", "5", "6"⟩)] "AB1"
  exact ⟨h.1.mp (by decide),
    h.2 ["AB", "AB1", "", "", "", "", "", "", "", "", "", "", ""]
      (by decide) (by decide) (by decide)⟩

/-- Claim C4: sectors group into stations by dropping the last
character of the identifier, the sectors of a station are emitted in
ascending lexicographic order, and only the position-0 row of each
group carries the station name (all other rows leave it blank); sector
ids `ABAA1`, `ABAA2` group under station `ABAA`. -/
theorem C4_thm : ∀ (sd : List (String × List (String × String)))
    (td : List (String × TrafficRecord)),
    (∀ g ∈ buildStations (sd.map Prod.fst),
      (∀ k ∈ g.2, dropLast1 k = g.1) ∧
      (sortStrs g.2).Pairwise (fun a b => strLt b a = false) ∧
      (sortStrs g.2).Perm g.2) ∧
    (∀ (st : String) (i : Nat) (sid : String),
      (makeRow sd td st i sid).get? 0 = some (if i = 0 then st else "")) ∧
    createRows sd td = ((buildStations (sd.map Prod.fst)).map
      (fun g => (sortStrs g.2).enum.map (fun p => makeRow sd td g.1 p.1 p.2))).flatten ∧
    create_csv_table [("ABAA1", []), ("ABAA2", [])] [] =
      [headers,
       ["ABAA", "ABAA1", "", "", "", "", "", "", "", "", "", "", ""],
       ["", "ABAA2", "", "", "", "", "", "", "", "", "", "", ""]] := by
  intro sd td
  refine ⟨?_, ?_, rfl, by decide⟩
  · intro g hg
    exact ⟨buildStations_station _ g hg, sorted_sortStrs _, perm_sortStrs _⟩
  · intro st i sid
    exact makeRow_get0 sd td st i sid

/-- Witness for C4: the grouping facts at the concrete two-sector
station. -/
theorem C4_witness :
    dropLast1 "ABAA1" = "ABAA" ∧
    (sortStrs ["ABAA1", "ABAA2"]).Pairwise (fun a b => strLt b a = false) ∧
    (sortStrs ["ABAA1", "ABAA2"]).Perm ["ABAA1", "ABAA2"] := by
  have h := (C4_thm [("ABAA1", []), ("ABAA2", [])] []).1
    ("ABAA", ["ABAA1", "ABAA2"]) (by decide)
  exact ⟨h.1 "ABAA1" (by decide), h.2.1, h.2.2⟩

/-- Claim C5: lines before the dash boundary line never contribute an
entry (a run with no boundary line yields the empty mapping), and on a
run with a boundary line the result is exactly the fold over the lines
after it, started with the flag set — the boundary line itself
contributes nothing. -/
theorem C5_thm :
    (∀ pre : List String, (∀ l ∈ pre, hasBoundary l = false) →
      parse_traffic_report pre = []) ∧
    (∀ (pre : List String) (b : String) (post : List String),
      (∀ l ∈ pre, hasBoundary l = false) → hasBoundary b = true →
      parse_traffic_report (pre ++ b :: post) = (post.foldl step (true, [])).2) := by
  constructor
  · intro pre h
    rw [parse_traffic_report, foldl_step_false pre [] h]
  · intro pre b post h hb
    rw [parse_traffic_report, List.foldl_append, foldl_step_false pre [] h,
      List.foldl_cons]
    have hstep : step (false, []) b = (true, []) := by simp [step, hb]
    rw [hstep]

/-- Witness for C5: a pre-boundary line that tokenizes into seven
parts contributes nothing, with and without a following boundary. -/
theorem C5_witness :
    parse_traffic_report ["A1 1 2 3 4 5 6 7"] = [] ∧
    parse_traffic_report (["A1 1 2 3 4 5 6 7"] ++ boundaryStr :: ["S1 10 2 3 0 0.5 1.0"]) =
      ((["S1 10 2 3 0 0.5 1.0"] : List String).foldl step (true, [])).2 :=
  ⟨C5_thm.1 ["A1 1 2 3 4 5 6 7"] (by decide),
   C5_thm.2 ["A1 1 2 3 4 5 6 7"] boundaryStr ["S1 10 2 3 0 0.5 1.0"]
     (by decide) (by decide)⟩

/-- Claim C6: the transmitter-power field follows the three-case rule
— a parseable value `d` gives the watts `10^(d/10)` rounded to two
decimals, then `W/`, the original string and `dBW` (`20` gives
`100.00W/20dBW`, and on exponents that are no multiple of ten, `15`
gives `31.62W/15dBW`, `43` gives `19952.62W/43dBW`, `12.5` gives
`17.78W/12.5dBW`, `-3` gives watts `0.50`); a non-empty unparseable
value gives `/…dBW` (`abc` gives `/abcdBW`); an empty or absent value
gives the empty string — including end-to-end through the table
builder. -/
theorem C6_thm : ∀ (v : String) (d : Dec),
    (pyFloat? v = some d →
      powerField v = fmtPow10Div10 d ++ "W/" ++ v ++ "dBW") ∧
    (v ≠ "" → pyFloat? v = none → powerField v = "/" ++ v ++ "dBW") ∧
    powerField "" = "" ∧
    powerField "20" = "100.00W/20dBW" ∧
    powerField "15" = "31.62W/15dBW" ∧
    powerField "43" = "19952.62W/43dBW" ∧
    powerField "12.5" = "17.78W/12.5dBW" ∧
    powerField "-3" = "0.50W/-3dBW" ∧
    powerField "abc" = "/abcdBW" ∧
    (createRows [("B1", [("Transmitter power(dBW)", "15")])] []).head? =
      some ["B", "B1", "", "31.62W/15dBW", "", "", "", "", "", "", "", "", ""] := by
  intro v d
  refine ⟨?_, ?_, by decide, by decide, by decide, by decide, by decide, by decide,
    by decide, by decide⟩
  · intro h
    have hne : v ≠ "" := by
      intro hveq
      have h0 : pyFloat? "" = none := by decide
      rw [hveq, h0] at h
      exact Option.noConfusion h
    simp only [powerField, if_pos hne, h]
  · intro hne h
    simp only [powerField, if_pos hne, h]

/-- Witness for C6: both hypothesis-bearing cases discharged at
concrete inputs, the parseable one at a dBW value that is no multiple
of ten. -/
theorem C6_witness :
    powerField "15" = fmtPow10Div10 ⟨15, 0⟩ ++ "W/" ++ "15" ++ "dBW" ∧
    powerField "abc" = "/" ++ "abc" ++ "dBW" :=
  ⟨(C6_thm "15" ⟨15, 0⟩).1 (by decide),
   (C6_thm "abc" ⟨0, 0⟩).2.1 (by decide) (by decide)⟩

/-- Claim C7: every site-block line containing `=` is split at the
first occurrence only, key and value trimmed, a value containing `=`
kept whole; `A = B=C` yields key `A` and value `B=C`, also end-to-end
through the site parser. -/
theorem C7_thm : ∀ (k v : List Char), '=' ∉ k →
    splitFirstEq ⟨k ++ '=' :: v⟩ = some (strim ⟨k⟩, strim ⟨v⟩) ∧
    splitFirstEq "A = B=C" = some ("A", "B=C") ∧
    dget? (parse_tmp_file "SITEID = S\nA = B=C") "S" = some [("A", "B=C")] := by
  intro k v h
  refine ⟨?_, by decide, by decide⟩
  rw [splitFirstEq]
  have hd : (String.mk (k ++ '=' :: v)).data = k ++ '=' :: v := rfl
  rw [hd, splitFirstEqAux_append k v h]
  rfl

/-- Witness for C7: the split applied to a concrete line. -/
theorem C7_witness :
    splitFirstEq ⟨['X'] ++ '=' :: ['Y']⟩ = some (strim ⟨['X']⟩, strim ⟨['Y']⟩) :=
  (C7_thm ['X'] ['Y'] (by decide)).1

/-- Claim C8: the site parser maps an identifier to the parameter
mapping of the last block carrying it — the lookup of any identifier
equals the first match over the reversed section list — and a
duplicated `SITEID` leaves a single entry holding the later block. -/
theorem C8_thm : ∀ (ss : List String) (i : String),
    dget? (parseSections ss) i = ss.reverse.findSome?
      (fun sec => if (parseSection sec).1 = i then some (parseSection sec).2 else none) ∧
    parse_tmp_file "SITEID = S\nA = 1\nSITEID = S\nA = 2" = [("S", [("A", "2")])] := by
  intro ss i
  refine ⟨?_, by decide⟩
  rw [parseSections]
  rw [dget?_foldl_gen (fun d sec => dinsert d (parseSection sec).1 (parseSection sec).2) i
    (fun sec => if (parseSection sec).1 = i then some (parseSection sec).2 else none)
    (fun d a => by
      rw [dget?_dinsert]
      by_cases hk : (parseSection a).1 = i <;> simp [hk]) ss []]
  cases hq : ss.reverse.findSome?
      (fun sec => if (parseSection sec).1 = i then some (parseSection sec).2 else none) <;>
    simp [hq, dget?]

/-- Claim C9: both parsers skip malformed lines silently — a line
without `=` leaves a site block's mapping unchanged, and a non-blank
line with fewer than 7 tokens leaves the traffic state unchanged
(totality of the embedding is totality of the parsers). -/
theorem C9_thm : ∀ (d : List (String × String)) (line : String) (s : Bool)
    (td : List (String × TrafficRecord)),
    ('=' ∉ line.data → procKV d line = d) ∧
    (hasBoundary line = false → strim line ≠ "" → (pySplit line).length < 7 →
      step (s, td) line = (s, td)) := by
  intro d line s td
  constructor
  · intro h
    rw [procKV, splitFirstEq, splitFirstEqAux_none line.data h]
    rfl
  · intro hb ht hlen
    have hle : lineEntry line = none := by
      simp only [lineEntry]
      rw [if_neg (by omega)]
    cases s with
    | false => simp [step, hb]
    | true => simp [step, hb, ht, hle]

/-- Witness for C9: a concrete `=`-free line and a concrete short
traffic line are skipped. -/
theorem C9_witness :
    procKV [("K", "V")] "no equals sign here" = [("K", "V")] ∧
    step (true, ([] : List (String × TrafficRecord))) "a b c" = (true, []) :=
  ⟨(C9_thm [("K", "V")] "no equals sign here" true []).1 (by decide),
   (C9_thm [] "a b c" true []).2 (by decide) (by decide) (by decide)⟩

/-- Claim C10: after the boundary, the traffic mapping sends a sector
identifier to the record of the last data line carrying it as first
token (lookup equals the first match over the reversed line list), and
two data lines for `S1` leave exactly the later line's six fields. -/
theorem C10_thm : ∀ (post : List String) (s : String),
    dget? (parse_traffic_report (boundaryStr :: post)) s =
      post.reverse.findSome? (fun l => entryFor l s) ∧
    parse_traffic_report [boundaryStr, "S1 1 2 3 4 5 6", "S1 9 8 7 6 5 4"] =
      [("S1", ⟨"9", "8", "7", "6", "5", "4"⟩)] := by
  intro post s
  refine ⟨?_, by decide⟩
  have hstep : step (false, []) boundaryStr = (true, []) := by
    have hb : hasBoundary boundaryStr = true := by decide
    simp [step, hb]
  rw [parse_traffic_report, List.foldl_cons, hstep, foldl_step_true]
  show dget? (post.foldl step2 []) s = _
  rw [dget?_foldl_gen step2 s (fun l => entryFor l s) (fun d a => dget?_step2 d a s) post []]
  cases hq : post.reverse.findSome? (fun l => entryFor l s) <;> simp [hq, dget?]

